import Mathlib

/-!
Verification development for the spreadsheet-filtering bot (`bot.py`).

The Python source is shallowly embedded: each handler and helper of
`bot.py` is translated into an executable Lean definition over an explicit
value type `PyValue` (the dynamic cell values openpyxl/xlrd produce).
External collaborators (the Telegram transport, openpyxl/xlrd parsing of
raw bytes, rapidfuzz ranking) are modelled as explicit parameters carrying
their results, while all decision logic of `bot.py` itself is translated
directly.

Conventions:
* a workbook grid is a `List (List PyValue)`; row 1 (the first list) is
  the header row, matching the openpyxl 1-based `ws.cell(r, c)` view;
* Python floats are modelled as exact dyadic rationals `num / 2 ^ den2`
  (every finite IEEE-754 double has this form); NaN/infinity and the
  precision limits of binary64 are outside the model;
* Python strings are Lean `String`s; the ASCII fragment of `str.strip`,
  `str.lower`, `str.isdigit` and substring `in` is modelled.
-/

/-- The characters Python's default `str.strip()` removes. -/
def pySpace (c : Char) : Bool :=
  c = ' ' || c = '\t' || c = '\n' || c = '\x0d' || c = '\x0b' || c = '\x0c'

/-- Drop leading characters satisfying `p`. -/
def dropStart (p : Char → Bool) : List Char → List Char
  | [] => []
  | c :: cs => if p c then dropStart p cs else c :: cs

/-- Drop trailing characters satisfying `p`. -/
def dropEnd (p : Char → Bool) : List Char → List Char
  | [] => []
  | c :: cs =>
    let r := dropEnd p cs
    if r.isEmpty && p c then [] else c :: r

/-- Characters of a Python-stripped string: whitespace removed from both ends. -/
def stripChars (l : List Char) : List Char := dropEnd pySpace (dropStart pySpace l)

/-- Models Python `s.strip()` (default whitespace, ASCII fragment). -/
def pyStrip (s : String) : String := ⟨stripChars s.data⟩

/-- Models Python `s.lower()` (ASCII fragment). -/
def pyLower (s : String) : String := ⟨s.data.map Char.toLower⟩

/-- Is `n` a prefix of `h`? -/
def listPrefOf : List Char → List Char → Bool
  | [], _ => true
  | _ :: _, [] => false
  | a :: as, b :: bs => a == b && listPrefOf as bs

/-- Does `n` occur as a contiguous run inside `h`?  Second argument structural. -/
def listSubOf (n : List Char) : List Char → Bool
  | [] => listPrefOf n []
  | h :: hs => listPrefOf n (h :: hs) || listSubOf n hs

/-- Models Python `needle in haystack` on strings. -/
def pyIn (needle haystack : String) : Bool := listSubOf needle.data haystack.data

/-- Models Python `s.endswith(t)`. -/
def pyEndsWith (s t : String) : Bool := listPrefOf t.data.reverse s.data.reverse

/-- Models Python `s.isdigit()` (ASCII digits). -/
def pyIsDigit (s : String) : Bool := !s.data.isEmpty && s.data.all Char.isDigit

/-- Models Python `int(s)` on a string of ASCII digits. -/
def pyDigitsToNat (s : String) : Nat :=
  s.data.foldl (fun a c => a * 10 + (c.toNat - 48)) 0

/-- The decimal digit character for `d` (values above 9 clamp to `'9'`;
they never occur in use). -/
def digitChar : Nat → Char
  | 0 => '0' | 1 => '1' | 2 => '2' | 3 => '3' | 4 => '4'
  | 5 => '5' | 6 => '6' | 7 => '7' | 8 => '8' | _ => '9'

/-- Decimal digits of `n`, most significant first (`fuel` bounds recursion). -/
def natDigitsAux : Nat → Nat → List Char
  | 0, _ => []
  | fuel + 1, n => if n = 0 then [] else natDigitsAux fuel (n / 10) ++ [digitChar (n % 10)]

/-- Decimal representation of a natural number, as characters. -/
def natChars (n : Nat) : List Char := if n = 0 then ['0'] else natDigitsAux (n + 1) n

/-- Decimal representation of a natural number. -/
def natStr (n : Nat) : String := ⟨natChars n⟩

/-- Characters of Python `str(i)` for an integer. -/
def intChars : Int → List Char
  | .ofNat n => natChars n
  | .negSucc m => '-' :: natChars (m + 1)

/-- Models Python `str(i)` for an integer. -/
def intStr (i : Int) : String := ⟨intChars i⟩

-- ---------------------------------------------------------------------------
-- Basic lemmas about the string helpers
-- ---------------------------------------------------------------------------

theorem dropStart_idem (p : Char → Bool) : ∀ l, dropStart p (dropStart p l) = dropStart p l := by
  intro l
  induction l with
  | nil => rfl
  | cons c cs ih =>
    by_cases h : p c
    · simp [dropStart, h, ih]
    · simp [dropStart, h]

theorem dropStart_head_false {p : Char → Bool} :
    ∀ {l c cs}, dropStart p l = c :: cs → p c = false := by
  intro l
  induction l with
  | nil => intro c cs h; simp [dropStart] at h
  | cons a as ih =>
    intro c cs h
    by_cases hp : p a
    · exact ih (by simpa [dropStart, hp] using h)
    · simp [dropStart, hp] at h
      rcases h with ⟨h1, _⟩
      subst h1
      exact Bool.eq_false_iff.mpr hp

theorem dropEnd_cons (p : Char → Bool) (c : Char) (cs : List Char) :
    dropEnd p (c :: cs) =
      if (dropEnd p cs).isEmpty && p c then [] else c :: dropEnd p cs := rfl

theorem dropEnd_idem (p : Char → Bool) : ∀ l, dropEnd p (dropEnd p l) = dropEnd p l := by
  intro l
  induction l with
  | nil => rfl
  | cons c cs ih =>
    rw [dropEnd_cons]
    by_cases h : ((dropEnd p cs).isEmpty && p c) = true
    · rw [if_pos h]; rfl
    · rw [if_neg h, dropEnd_cons, ih, if_neg h]

theorem dropEnd_head?_cases (p : Char → Bool) :
    ∀ l, dropEnd p l = [] ∨ (dropEnd p l).head? = l.head? := by
  intro l
  cases l with
  | nil => exact Or.inl rfl
  | cons c cs =>
    rw [dropEnd_cons]
    by_cases h : ((dropEnd p cs).isEmpty && p c) = true
    · exact Or.inl (by rw [if_pos h])
    · right
      rw [if_neg h]
      rfl

/-- Stripping is idempotent: `s.strip().strip() = s.strip()`. -/
theorem stripChars_idem (l : List Char) : stripChars (stripChars l) = stripChars l := by
  unfold stripChars
  have hhead : dropStart pySpace (dropEnd pySpace (dropStart pySpace l)) =
      dropEnd pySpace (dropStart pySpace l) := by
    rcases dropEnd_head?_cases pySpace (dropStart pySpace l) with h | h
    · simp [h, dropStart]
    · cases he : dropEnd pySpace (dropStart pySpace l) with
      | nil => simp [dropStart]
      | cons c cs =>
        rw [he] at h
        cases hs : dropStart pySpace l with
        | nil => rw [hs] at he; simp [dropEnd] at he
        | cons a as =>
          rw [hs] at h
          simp only [List.head?] at h
          have hc : c = a := by simpa using h
          subst hc
          have : pySpace c = false := dropStart_head_false hs
          simp [dropStart, this]
  rw [hhead, dropEnd_idem]

theorem mem_dropStart {p : Char → Bool} {x : Char} (hx : p x = false) :
    ∀ {l}, x ∈ l → x ∈ dropStart p l := by
  intro l
  induction l with
  | nil => intro h; exact absurd h (List.not_mem_nil x)
  | cons c cs ih =>
    intro h
    by_cases hp : p c = true
    · have hxc : x ≠ c := by
        intro he
        rw [he] at hx
        rw [hx] at hp
        exact absurd hp (by decide)
      have : x ∈ cs := by
        rcases List.mem_cons.mp h with h1 | h1
        · exact absurd h1 hxc
        · exact h1
      simpa [dropStart, hp] using ih this
    · simpa [dropStart, hp] using h

theorem mem_dropEnd {p : Char → Bool} {x : Char} (hx : p x = false) :
    ∀ {l}, x ∈ l → x ∈ dropEnd p l := by
  intro l
  induction l with
  | nil => intro h; exact absurd h (List.not_mem_nil x)
  | cons c cs ih =>
    intro h
    rw [dropEnd_cons]
    rcases List.mem_cons.mp h with h1 | h1
    · subst h1
      rw [if_neg (by simp [hx])]
      exact List.mem_cons_self _ _
    · have hmem := ih h1
      have hie : (dropEnd p cs).isEmpty = false := by
        cases hdd : dropEnd p cs with
        | nil => rw [hdd] at hmem; exact absurd hmem (List.not_mem_nil x)
        | cons _ _ => rfl
      rw [if_neg (by simp [hie])]
      exact List.mem_cons_of_mem _ hmem

/-- A non-whitespace character of `l` survives stripping. -/
theorem mem_stripChars {x : Char} (hx : pySpace x = false) {l : List Char} (h : x ∈ l) :
    x ∈ stripChars l := mem_dropEnd hx (mem_dropStart hx h)

theorem listPrefOf_refl : ∀ l : List Char, listPrefOf l l = true := by
  intro l
  induction l with
  | nil => rfl
  | cons c cs ih => simp [listPrefOf, ih]

/-- Every string occurs in itself (`s in s` is true in Python). -/
theorem listSubOf_refl (l : List Char) : listSubOf l l = true := by
  cases l with
  | nil => rfl
  | cons c cs => simp [listSubOf, listPrefOf_refl]

theorem pyIn_refl (s : String) : pyIn s s = true := listSubOf_refl s.data

-- ---------------------------------------------------------------------------
-- Cell values
-- ---------------------------------------------------------------------------

/-- A Python `datetime.datetime` (microseconds are 0 in every value the
bot produces or parses, so they are omitted). -/
structure PyDateTime where
  year : Nat
  month : Nat
  day : Nat
  hour : Nat
  minute : Nat
  second : Nat
deriving DecidableEq

/-- A dynamic cell value as decoded by openpyxl/xlrd: `None`, `int`,
`float`, `str` or `datetime`.  A float is the exact dyadic rational
`num / 2 ^ den2` (every finite IEEE-754 double has this form). -/
inductive PyValue where
  | none
  | int (n : Int)
  | float (num : Int) (den2 : Nat)
  | str (s : String)
  | datetime (d : PyDateTime)
deriving DecidableEq

/-- The power `2 ^ k` as a natural number. -/
def pow2 (k : Nat) : Nat := 2 ^ k

/-- Models Python `int(v)` on the float `num / 2 ^ k` (truncation toward
zero; exact whenever the float is integral, the only case the bot uses). -/
def floatTruncInt (num : Int) (k : Nat) : Int := Int.tdiv num (Int.ofNat (pow2 k))

/-- Gregorian calendar date from a day count (civil-from-days algorithm;
day 0 is 1970-01-01). -/
def civilFromDays (z : Int) : Nat × Nat × Nat :=
  let n : Nat := (z + 719468).toNat
  let era := n / 146097
  let doe := n % 146097
  let yoe := (doe - doe / 1460 + doe / 36524 - doe / 146096) / 365
  let y := yoe + era * 400
  let doy := doe - (365 * yoe + yoe / 4 - yoe / 100)
  let mp := (5 * doy + 2) / 153
  let d := doy - (153 * mp + 2) / 5 + 1
  let m := if mp < 10 then mp + 3 else mp - 9
  (if m ≤ 2 then y + 1 else y, m, d)

/-- Models `xlrd.xldate.xldate_as_datetime(serial, 0)`: day 0 of the
legacy epoch is 1899-12-30, the fractional part is the time of day.  The
serial is the dyadic rational `num / 2 ^ k`.  (timedelta's rounding to
microseconds is exact for the dyadic serials considered here.) -/
def xldateFromRat (num : Int) (k : Nat) : PyDateTime :=
  let p : Int := Int.ofNat (pow2 k)
  let days := Int.fdiv num p
  let secs := (Int.fdiv (num * 86400) p - 86400 * days).toNat
  let (y, m, d) := civilFromDays (days - 25569)
  ⟨y, m, d, secs / 3600, secs % 3600 / 60, secs % 60⟩

/-- Decimal digits of `n` zero-padded on the left to width `w`
(Python `%0wd`). -/
def padChars (w : Nat) (n : Nat) : List Char :=
  List.replicate (w - (natChars n).length) '0' ++ natChars n

/-- Characters of `datetime.strftime("%d-%m-%Y")`. -/
def strftimeDMYChars (d : PyDateTime) : List Char :=
  padChars 2 d.day ++ '-' :: padChars 2 d.month ++ '-' :: padChars 4 d.year

/-- Models `datetime.strftime("%d-%m-%Y")`. -/
def strftimeDMY (d : PyDateTime) : String := ⟨strftimeDMYChars d⟩

/-- Characters of Python `str(datetime)`: `YYYY-MM-DD HH:MM:SS`
(microseconds are 0 throughout, so never printed). -/
def dtChars (d : PyDateTime) : List Char :=
  padChars 4 d.year ++ '-' :: padChars 2 d.month ++ '-' :: padChars 2 d.day ++
    ' ' :: padChars 2 d.hour ++ ':' :: padChars 2 d.minute ++ ':' :: padChars 2 d.second

/-- Fractional decimal digits of `rem / p`, most significant first; stops
when the remainder is exhausted (`fuel` bounds recursion; with `p = 2 ^ k`
and `fuel = k` the expansion is exact). -/
def fracDigitsAux : Nat → Nat → Nat → List Char
  | 0, _, _ => []
  | fuel + 1, rem, p =>
    if rem = 0 then []
    else digitChar (rem * 10 / p) :: fracDigitsAux fuel (rem * 10 % p) p

/-- Characters of Python `str(v)` for the float `num / 2 ^ k`, rendered as
the exact terminating decimal expansion (integer part, `'.'`, fractional
digits; `".0"` when integral).  This matches CPython's shortest-repr
output for the dyadic values used in this development; CPython switches
to scientific notation for very small or very large magnitudes, which is
outside this model. -/
def pyFloatChars (num : Int) (k : Nat) : List Char :=
  let p := pow2 k
  let n := num.natAbs
  let ds := fracDigitsAux k (n % p) p
  (if num < 0 then ['-'] else []) ++ natChars (n / p) ++ '.' :: (if ds.isEmpty then ['0'] else ds)

/-- Models Python `str(v)` on a cell value. -/
def pyStr : PyValue → String
  | PyValue.none => "None"
  | .int n => intStr n
  | .float num k => ⟨pyFloatChars num k⟩
  | .str s => s
  | .datetime d => ⟨dtChars d⟩

-- ---------------------------------------------------------------------------
-- `parse_possible_date`: xldate heuristic plus the strptime format chain
-- ---------------------------------------------------------------------------

/-- One directive of a strptime format string. -/
inductive FmtTok where
  | lit (c : Char)
  | wsp
  | yr4
  | mon
  | dayD
  | hr
  | minu
  | secD
  | monName
deriving DecidableEq

/-- Take at most `cap` leading ASCII digits. -/
def takeDigits : Nat → List Char → List Char × List Char
  | 0, l => ([], l)
  | _ + 1, [] => ([], [])
  | cap + 1, c :: cs =>
    if c.isDigit then
      let (ds, rest) := takeDigits cap cs
      (c :: ds, rest)
    else ([], c :: cs)

/-- Numeric value of a digit run. -/
def digitsVal (ds : List Char) : Nat := ds.foldl (fun a c => a * 10 + (c.toNat - 48)) 0

/-- Lowercased month abbreviations recognised by `%b` (C locale). -/
def monthAbbrevs : List (List Char × Nat) :=
  [("jan".data, 1), ("feb".data, 2), ("mar".data, 3), ("apr".data, 4),
   ("may".data, 5), ("jun".data, 6), ("jul".data, 7), ("aug".data, 8),
   ("sep".data, 9), ("oct".data, 10), ("nov".data, 11), ("dec".data, 12)]

/-- Case-insensitive match of a month abbreviation at the head of `l`. -/
def matchMonthName (l : List Char) : Option (Nat × List Char) :=
  monthAbbrevs.findSome? fun nv =>
    if listPrefOf nv.1 (l.map Char.toLower) then some (nv.2, l.drop nv.1.length) else Option.none

/-- Accumulated fields while running a format (strptime defaults). -/
structure DTAcc where
  y : Nat := 1900
  mo : Nat := 1
  d : Nat := 1
  h : Nat := 0
  mi : Nat := 0
  s : Nat := 0
deriving DecidableEq

/-- Run a strptime format against input characters.  Mirrors CPython's
`_strptime` regexes for the directives used by bot.py: `%Y` is exactly
four digits, `%d`/`%m`/`%H`/`%M`/`%S` take one or two digits constrained
to the regex's value range, a space in the format matches one or more
whitespace characters, `%b` matches a month abbreviation
case-insensitively, and the whole input must be consumed. -/
def runFmt : List FmtTok → List Char → DTAcc → Option DTAcc
  | [], [], acc => some acc
  | [], _ :: _, _ => Option.none
  | .lit c :: ts, l, acc =>
    match l with
    | [] => Option.none
    | x :: xs => if x == c then runFmt ts xs acc else Option.none
  | .wsp :: ts, l, acc =>
    match l with
    | [] => Option.none
    | x :: xs => if pySpace x then runFmt ts (dropStart pySpace xs) acc else Option.none
  | .yr4 :: ts, l, acc =>
    let (ds, rest) := takeDigits 4 l
    if ds.length = 4 then runFmt ts rest { acc with y := digitsVal ds } else Option.none
  | .mon :: ts, l, acc =>
    let (ds, rest) := takeDigits 2 l
    if !ds.isEmpty && 1 ≤ digitsVal ds && digitsVal ds ≤ 12 then
      runFmt ts rest { acc with mo := digitsVal ds }
    else Option.none
  | .dayD :: ts, l, acc =>
    let (ds, rest) := takeDigits 2 l
    if !ds.isEmpty && 1 ≤ digitsVal ds && digitsVal ds ≤ 31 then
      runFmt ts rest { acc with d := digitsVal ds }
    else Option.none
  | .hr :: ts, l, acc =>
    let (ds, rest) := takeDigits 2 l
    if !ds.isEmpty && digitsVal ds ≤ 23 then
      runFmt ts rest { acc with h := digitsVal ds }
    else Option.none
  | .minu :: ts, l, acc =>
    let (ds, rest) := takeDigits 2 l
    if !ds.isEmpty && digitsVal ds ≤ 59 then
      runFmt ts rest { acc with mi := digitsVal ds }
    else Option.none
  | .secD :: ts, l, acc =>
    let (ds, rest) := takeDigits 2 l
    if !ds.isEmpty && digitsVal ds ≤ 59 then
      runFmt ts rest { acc with s := digitsVal ds }
    else Option.none
  | .monName :: ts, l, acc =>
    match matchMonthName l with
    | some vr => runFmt ts vr.2 { acc with mo := vr.1 }
    | Option.none => Option.none

def isLeapYear (y : Nat) : Bool := (y % 4 == 0 && y % 100 != 0) || y % 400 == 0

def daysInMonth (y m : Nat) : Nat :=
  if m = 2 then (if isLeapYear y then 29 else 28)
  else if m = 4 ∨ m = 6 ∨ m = 9 ∨ m = 11 then 30
  else 31

/-- Models the `datetime(...)` constructor's validation (raises, i.e.
returns `Option.none`, on out-of-range fields). -/
def mkDatetime (acc : DTAcc) : Option PyDateTime :=
  if 1 ≤ acc.y ∧ acc.y ≤ 9999 ∧ 1 ≤ acc.mo ∧ acc.mo ≤ 12 ∧
     1 ≤ acc.d ∧ acc.d ≤ daysInMonth acc.y acc.mo ∧
     acc.h ≤ 23 ∧ acc.mi ≤ 59 ∧ acc.s ≤ 59 then
    some ⟨acc.y, acc.mo, acc.d, acc.h, acc.mi, acc.s⟩
  else Option.none

/-- The format list tried by `parse_possible_date` in bot.py, in order. -/
def pyDateFormats : List (List FmtTok) :=
  [ [.yr4, .lit '-', .mon, .lit '-', .dayD, .wsp, .hr, .lit ':', .minu, .lit ':', .secD],
    [.yr4, .lit '-', .mon, .lit '-', .dayD],
    [.dayD, .lit '-', .mon, .lit '-', .yr4],
    [.dayD, .lit '/', .mon, .lit '/', .yr4],
    [.yr4, .lit '/', .mon, .lit '/', .dayD],
    [.dayD, .lit '-', .monName, .lit '-', .yr4],
    [.dayD, .wsp, .monName, .wsp, .yr4],
    [.mon, .lit '/', .dayD, .lit '/', .yr4],
    [.yr4, .lit '.', .mon, .lit '.', .dayD, .wsp, .hr, .lit ':', .minu, .lit ':', .secD],
    [.yr4, .lit '.', .mon, .lit '.', .dayD] ]

/-- Try each format in order; a parse that matches but fails datetime
validation falls through to the next format (strptime raises, the loop
catches and continues). -/
def tryFormats : List (List FmtTok) → List Char → Option PyDateTime
  | [], _ => Option.none
  | f :: fs, l =>
    match runFmt f l {} with
    | some acc =>
      match mkDatetime acc with
      | some dt => some dt
      | Option.none => tryFormats fs l
    | Option.none => tryFormats fs l

/-- Exactly two ASCII digits. -/
def take2exact (l : List Char) : Option (Nat × List Char) :=
  match l with
  | a :: b :: rest => if a.isDigit && b.isDigit then some (digitsVal [a, b], rest) else Option.none
  | _ => Option.none

/-- Models `datetime.fromisoformat` on its second-precision core:
`YYYY-MM-DD[<sep>HH:MM[:SS]]`; fractional seconds and UTC offsets are
outside the model (they fail here). -/
def fromIso (l : List Char) : Option PyDateTime :=
  let (dys, r1) := takeDigits 4 l
  if dys.length = 4 then
    match r1 with
    | '-' :: r2 =>
      match take2exact r2 with
      | some (mo, r3) =>
        match r3 with
        | '-' :: r4 =>
          match take2exact r4 with
          | some (dy, r5) =>
            match r5 with
            | [] => mkDatetime ⟨digitsVal dys, mo, dy, 0, 0, 0⟩
            | _ :: r6 =>
              match take2exact r6 with
              | some (hh, r7) =>
                match r7 with
                | ':' :: r8 =>
                  match take2exact r8 with
                  | some (mm, r9) =>
                    match r9 with
                    | [] => mkDatetime ⟨digitsVal dys, mo, dy, hh, mm, 0⟩
                    | ':' :: r10 =>
                      match take2exact r10 with
                      | some (ss, rest) =>
                        if rest.isEmpty then mkDatetime ⟨digitsVal dys, mo, dy, hh, mm, ss⟩
                        else Option.none
                      | Option.none => Option.none
                    | _ => Option.none
                  | Option.none => Option.none
                | _ => Option.none
              | Option.none => Option.none
          | Option.none => Option.none
        | _ => Option.none
      | Option.none => Option.none
    | _ => Option.none
  else Option.none

/-- The string branch of `parse_possible_date`: strip, try the format
list, then `fromisoformat` when the string contains `t`/`T`. -/
def parseDateString (s : String) : Option PyDateTime :=
  let t := stripChars s.data
  match tryFormats pyDateFormats t with
  | some dt => some dt
  | Option.none =>
    if (t.map Char.toLower).contains 't' then fromIso t else Option.none

/-- Models `parse_possible_date` from bot.py: `datetime` passes through, a
numeric value strictly between 1000 and 100000 is treated as a legacy
date serial, a string is tried against the format chain. -/
def parse_possible_date : PyValue → Option PyDateTime
  | PyValue.none => Option.none
  | .datetime d => some d
  | .int n => if 1000 < n ∧ n < 100000 then some (xldateFromRat n 0) else Option.none
  | .float num k =>
    if Int.ofNat (1000 * pow2 k) < num ∧ num < Int.ofNat (100000 * pow2 k) then
      some (xldateFromRat num k)
    else Option.none
  | .str s => parseDateString s

/-- Models `is_integer_like_number` from bot.py: a float with zero fractional
part or an int. -/
def is_integer_like_number : PyValue → Bool
  | .float num k => Int.emod num (Int.ofNat (pow2 k)) == 0
  | .int _ => true
  | _ => false

/-- Models `format_cell_for_output` from bot.py: the cell normalizer applied to
every cell written into the filtered workbook.  Returns `Option.none`
exactly where Python returns `None`. -/
def format_cell_for_output : PyValue → Option String
  | PyValue.none => Option.none
  | .datetime d => some (strftimeDMY d)
  | .int n => some (intStr n)
  | .float num k =>
    if is_integer_like_number (.float num k) then some (intStr (floatTruncInt num k))
    else
      match parse_possible_date (.float num k) with
      | some d => some (strftimeDMY d)
      | Option.none => some ⟨pyFloatChars num k⟩
  | .str s =>
    match parse_possible_date (.str s) with
    | some d => some (strftimeDMY d)
    | Option.none => some (pyStrip s)

-- ---------------------------------------------------------------------------
-- Grid access (openpyxl view) and the decoder
-- ---------------------------------------------------------------------------

/-- A decoded worksheet: rows of cell values; row 1 is the header row. -/
abbrev Grid := List (List PyValue)

/-- openpyxl `ws.max_row` (an empty sheet reports 1). -/
def wsMaxRow (g : Grid) : Nat := max g.length 1

/-- openpyxl `ws.max_column` (an empty sheet reports 1). -/
def wsMaxCol (g : Grid) : Nat := max ((g.map List.length).foldr Nat.max 0) 1

/-- openpyxl `ws.cell(r, c).value`, 1-based; cells outside the appended
data read as `None`. -/
def cellAt (g : Grid) (r c : Nat) : PyValue :=
  (g.getD (r - 1) []).getD (c - 1) PyValue.none

/-- The data-row indices `range(2, ws.max_row + 1)` scanned by the
handlers. -/
def dataRowIdxs (g : Grid) : List Nat := List.range' 2 (wsMaxRow g - 1)

/-- An exception from a decode attempt: xlrd's `XLRDError`, any other
exception, or the `ValueError` the loader itself raises. -/
inductive DecodeErr where
  | xlrdError (msg : String)
  | otherError (msg : String)
  | valueError (msg : String)
deriving DecidableEq

deriving instance DecidableEq for Except

/-- Models `load_excel_clean_from_bytes` from bot.py.  The byte-level parsing is
external: `xlsxAttempt` carries what openpyxl would produce on these
bytes and `xlsAttempt` what xlrd would produce; this definition
reproduces the function's extension dispatch and its fallback logic over
those outcomes (only an `XLRDError` whose message contains the literal
`"xlsx file; not supported"` triggers the retry as a modern container). -/
def load_excel_clean_from_bytes (xlsxAttempt xlsAttempt : Except DecodeErr Grid)
    (fileName : String) : Except DecodeErr Grid :=
  let lower := pyLower fileName
  if pyEndsWith lower ".xlsx" then xlsxAttempt
  else if pyEndsWith lower ".xls" then
    match xlsAttempt with
    | .ok g => .ok g
    | .error (.xlrdError e) =>
      if pyIn "xlsx file; not supported" (pyLower e) then xlsxAttempt
      else .error (.xlrdError e)
    | .error e => .error e
  else .error (.valueError "Unsupported file type. Send .xls or .xlsx")

-- ---------------------------------------------------------------------------
-- Session state and the conversation handlers
-- ---------------------------------------------------------------------------

/-- The conversation states of the filtering workflow (the `WAITING_*`
constants and `ConversationHandler.END`). -/
inductive BotState where
  | waitingFile
  | waitingColumn
  | waitingQuery
  | waitingSelect
  | ended
deriving DecidableEq

/-- The `context.user_data` fields the filtering workflow reads and
writes. -/
structure SessionData where
  filePath : Option String := Option.none
  fileName : Option String := Option.none
  maxCol : Option Nat := Option.none
  col : Option Nat := Option.none
  candidates : Option (List String) := Option.none
  chosenValue : Option String := Option.none
deriving DecidableEq

/-- openpyxl `get_column_letter` (bijective base 26, 1 ↦ `"A"`). -/
def colLetterAux : Nat → Nat → List Char
  | 0, _ => []
  | fuel + 1, n =>
    if n = 0 then []
    else colLetterAux fuel ((n - 1) / 26) ++ [Char.ofNat (65 + (n - 1) % 26)]

/-- openpyxl `get_column_letter`. -/
def get_column_letter (n : Nat) : String := ⟨colLetterAux (n + 1) n⟩

/-- Python truthiness of a cell value (`if v:`). -/
def pyTruthy : PyValue → Bool
  | PyValue.none => false
  | .int n => n != 0
  | .float num _ => num != 0
  | .str s => !s.data.isEmpty
  | .datetime _ => true

/-- The label `receive_file` builds for header position `c`:
`"c. <str(v)>"`, or `"c. Column <letter>"` when the header cell is
`None`. -/
def headerLabel (g : Grid) (c : Nat) : String :=
  match cellAt g 1 c with
  | PyValue.none => natStr c ++ ". Column " ++ get_column_letter c
  | v => natStr c ++ ". " ++ pyStr v

/-- The column list `receive_file` presents, one label per position. -/
def columnHeaders (g : Grid) : List String :=
  (List.range' 1 (wsMaxCol g)).map (headerLabel g)

inductive FileOutcome where
  | badExtension
  | tooManyRows (dataRows limit : Nat)
  | loaded (headers : List String)
deriving DecidableEq

structure FileResult where
  next : BotState
  outcome : FileOutcome
  data : SessionData
deriving DecidableEq

/-- The default `MAX_ROWS` configuration value. -/
def MAX_ROWS : Nat := 200000

/-- Models `receive_file` from bot.py, from the extension check onward (the
document-presence and byte-size guards precede it and do not touch the
workbook; a successful decode of the bytes is given as `g`).  `maxRows`
is the configured `MAX_ROWS`. -/
def receive_file (maxRows : Nat) (fname savedPath : String) (g : Grid)
    (ud : SessionData) : FileResult :=
  if !(pyEndsWith (pyLower fname) ".xls" || pyEndsWith (pyLower fname) ".xlsx") then
    ⟨.waitingFile, .badExtension, ud⟩
  else if wsMaxRow g - 1 > maxRows then
    ⟨.waitingFile, .tooManyRows (wsMaxRow g - 1) maxRows, ud⟩
  else
    ⟨.waitingColumn, .loaded (columnHeaders g),
      { ud with filePath := some savedPath, fileName := some fname,
                maxCol := some (wsMaxCol g) }⟩

/-- The key `str(raw).strip().lower()` under which `receive_query`
deduplicates a cell. -/
def queryKey (v : PyValue) : String := pyLower (pyStrip (pyStr v))

/-- The surface form `str(raw).strip()` that `receive_query` retains. -/
def querySurface (v : PyValue) : String := pyStrip (pyStr v)

/-- The scan loop of `receive_query`: visit the data rows in order and
build the insertion-ordered `seen` dict (as an association list) from
normalized key to first-seen surface form, keeping only cells whose
normalized text contains the lowercased query. -/
def scanRows (g : Grid) (col : Nat) (ql : String) :
    List Nat → List (String × String) → List (String × String)
  | [], seen => seen
  | r :: rs, seen =>
    let raw := cellAt g r col
    if raw = PyValue.none then scanRows g col ql rs seen
    else if pyIn ql (queryKey raw) then
      if seen.any (fun p => p.1 == queryKey raw) then scanRows g col ql rs seen
      else scanRows g col ql rs (seen ++ [(queryKey raw, querySurface raw)])
    else scanRows g col ql rs seen

structure QueryResult where
  next : BotState
  storedCandidates : Option (List String)
  sentDocument : Bool
deriving DecidableEq

/-- Models `receive_query` from bot.py for an intact session (the grid has been
reloaded from the saved file, the column is chosen).  `rank` stands for
the external rapidfuzz call `process.extract(query, choices,
scorer=fuzz.partial_ratio, limit=200)` projected to its choice strings;
the handler presents the first 40 of its output.  The handler never
sends a document. -/
def receive_query (rank : String → List String → List String) (g : Grid) (col : Nat)
    (text : String) : QueryResult :=
  let query := pyStrip text
  if query = "" then ⟨.waitingQuery, Option.none, false⟩
  else
    let seen := scanRows g col (pyLower query) (dataRowIdxs g) []
    if seen.isEmpty then ⟨.ended, Option.none, false⟩
    else
      let choices := seen.map Prod.snd
      let presented := (rank query choices).take 40
      ⟨.waitingSelect, some presented, false⟩

structure OutputDoc where
  header : List String
  rows : List (List (Option String))
  matchCount : Nat
deriving DecidableEq

structure SelectResult where
  next : BotState
  data : SessionData
  document : Option OutputDoc
  reply : String
deriving DecidableEq

/-- The header row `receive_select` writes: `str(v) if v else ""`. -/
def outputHeader (g : Grid) : List String :=
  (List.range' 1 (wsMaxCol g)).map fun c =>
    if pyTruthy (cellAt g 1 c) then pyStr (cellAt g 1 c) else ""

/-- One output row: every cell of the source row passed through
`format_cell_for_output`. -/
def outRowAt (g : Grid) (r : Nat) : List (Option String) :=
  (List.range' 1 (wsMaxCol g)).map fun c => format_cell_for_output (cellAt g r c)

/-- The filtering loop of `receive_select`: a data row is kept when its
cell in the filter column is not `None` and `chosen.lower()` occurs
inside `str(val).strip().lower()`; kept rows are appended formatted and
counted. -/
def buildOutput (g : Grid) (col : Nat) (chosen : String) :
    List (List (Option String)) × Nat :=
  (dataRowIdxs g).foldl
    (fun acc r =>
      let val := cellAt g r col
      if val = PyValue.none then acc
      else if pyIn (pyLower chosen) (pyLower (pyStrip (pyStr val))) then
        (acc.1 ++ [outRowAt g r], acc.2 + 1)
      else acc)
    ([], 0)

/-- Models `receive_select` from bot.py.  `grid` is the workbook reloaded from
the session's saved file (`Option.none` models a missing/expired file)
and `col` the previously selected column.  The model is total: Python
would raise if `col` were unset, a state the claims exclude. -/
def receive_select (text : String) (ud : SessionData) (grid : Option Grid)
    (col : Nat) : SelectResult :=
  let txt := pyStrip text
  if !pyIsDigit txt then ⟨.waitingSelect, ud, Option.none, "Enter a valid number."⟩
  else
    let idx := pyDigitsToNat txt
    if idx = 0 then ⟨.ended, ud, Option.none, "Cancelled."⟩
    else
      let candidates := ud.candidates.getD []
      if idx < 1 ∨ idx > candidates.length then
        ⟨.waitingSelect, ud, Option.none, "Invalid selection."⟩
      else
        let chosen := candidates.getD (idx - 1) ""
        let ud' := { ud with chosenValue := some chosen }
        match grid with
        | Option.none =>
          ⟨.ended, ud', Option.none,
            "Uploaded file not found (session expired). Please upload again."⟩
        | some g =>
          let out := buildOutput g col chosen
          if out.2 = 0 then ⟨.ended, ud', Option.none, "Unexpected: no rows matched."⟩
          else
            ⟨.ended, ud', some ⟨outputHeader g, out.1, out.2⟩,
              "Filtered file ready. " ++ natStr out.2 ++ " rows matched."⟩

-- ---------------------------------------------------------------------------
-- Character-class lemmas for the rendered strings
-- ---------------------------------------------------------------------------

/-- The ten decimal digit characters. -/
def decDigits : List Char := ['0', '1', '2', '3', '4', '5', '6', '7', '8', '9']

theorem digitChar_mem (d : Nat) : digitChar d ∈ decDigits := by
  match d with
  | 0 | 1 | 2 | 3 | 4 | 5 | 6 | 7 | 8 => decide
  | n + 9 =>
    show ('9' : Char) ∈ decDigits
    decide

theorem natDigitsAux_subset :
    ∀ fuel n c, c ∈ natDigitsAux fuel n → c ∈ decDigits := by
  intro fuel
  induction fuel with
  | zero => intro n c h; exact absurd h (List.not_mem_nil c)
  | succ f ih =>
    intro n c h
    by_cases hn : n = 0
    · rw [natDigitsAux, if_pos hn] at h
      exact absurd h (List.not_mem_nil c)
    · rw [natDigitsAux, if_neg hn] at h
      rcases List.mem_append.mp h with h1 | h1
      · exact ih _ _ h1
      · rcases List.mem_singleton.mp h1 with rfl
        exact digitChar_mem _

theorem natChars_subset {n : Nat} {c : Char} (h : c ∈ natChars n) : c ∈ decDigits := by
  unfold natChars at h
  by_cases hn : n = 0
  · rw [if_pos hn] at h
    rcases List.mem_singleton.mp h with rfl
    decide
  · rw [if_neg hn] at h
    exact natDigitsAux_subset _ _ _ h

theorem intChars_subset {i : Int} {c : Char} (h : c ∈ intChars i) : c ∈ '-' :: decDigits := by
  cases i with
  | ofNat n => exact List.mem_cons_of_mem _ (natChars_subset h)
  | negSucc m =>
    rcases List.mem_cons.mp h with rfl | h1
    · exact List.mem_cons_self _ _
    · exact List.mem_cons_of_mem _ (natChars_subset h1)

theorem padChars_subset {w n : Nat} {c : Char} (h : c ∈ padChars w n) : c ∈ decDigits := by
  unfold padChars at h
  rcases List.mem_append.mp h with h1 | h1
  · rcases List.eq_of_mem_replicate h1 with rfl
    decide
  · exact natChars_subset h1

theorem strftimeDMYChars_subset {d : PyDateTime} {c : Char}
    (h : c ∈ strftimeDMYChars d) : c ∈ '-' :: decDigits := by
  unfold strftimeDMYChars at h
  simp only [List.mem_append, List.mem_cons, or_assoc] at h
  rcases h with h | rfl | h | rfl | h
  · exact List.mem_cons_of_mem _ (padChars_subset h)
  · exact List.mem_cons_self _ _
  · exact List.mem_cons_of_mem _ (padChars_subset h)
  · exact List.mem_cons_self _ _
  · exact List.mem_cons_of_mem _ (padChars_subset h)

-- ---------------------------------------------------------------------------
-- The filtering loop as a filter/count over the data rows
-- ---------------------------------------------------------------------------

/-- The row predicate of `receive_select`'s loop: a non-`None` cell whose
`str(val).strip().lower()` contains `chosen.lower()`. -/
def rowKeep (g : Grid) (col : Nat) (chosen : String) (r : Nat) : Bool :=
  !(cellAt g r col == PyValue.none) &&
    pyIn (pyLower chosen) (pyLower (pyStrip (pyStr (cellAt g r col))))

theorem buildOutput_foldl (g : Grid) (col : Nat) (chosen : String) :
    ∀ (rs : List Nat) (acc : List (List (Option String)) × Nat),
      rs.foldl
        (fun acc r =>
          let val := cellAt g r col
          if val = PyValue.none then acc
          else if pyIn (pyLower chosen) (pyLower (pyStrip (pyStr val))) then
            (acc.1 ++ [outRowAt g r], acc.2 + 1)
          else acc)
        acc =
      (acc.1 ++ (rs.filter (rowKeep g col chosen)).map (outRowAt g),
       acc.2 + rs.countP (rowKeep g col chosen)) := by
  intro rs
  induction rs with
  | nil => intro acc; simp
  | cons r rs ih =>
    intro acc
    by_cases h1 : cellAt g r col = PyValue.none
    · have hk : rowKeep g col chosen r = false := by
        unfold rowKeep
        rw [beq_iff_eq.mpr h1]
        rfl
      simp only [List.foldl_cons, if_pos h1, List.filter_cons, hk, List.countP_cons, hk]
      simpa using ih acc
    · by_cases h2 : pyIn (pyLower chosen) (pyLower (pyStrip (pyStr (cellAt g r col)))) = true
      · have hk : rowKeep g col chosen r = true := by
          unfold rowKeep
          rw [h2, beq_eq_false_iff_ne.mpr h1]
          rfl
        simp only [List.foldl_cons, if_neg h1, if_pos h2, List.filter_cons, hk,
          List.countP_cons]
        rw [ih]
        simp only [if_true, List.map_cons, Prod.mk.injEq]
        constructor
        · simp [List.append_assoc]
        · omega
      · have hk : rowKeep g col chosen r = false := by
          unfold rowKeep
          rw [beq_eq_false_iff_ne.mpr h1]
          simpa using h2
        simp only [List.foldl_cons, if_neg h1, if_neg h2, List.filter_cons, hk,
          List.countP_cons, hk]
        simpa using ih acc

theorem buildOutput_eq (g : Grid) (col : Nat) (chosen : String) :
    buildOutput g col chosen =
      (((dataRowIdxs g).filter (rowKeep g col chosen)).map (outRowAt g),
       (dataRowIdxs g).countP (rowKeep g col chosen)) := by
  unfold buildOutput
  simpa using buildOutput_foldl g col chosen (dataRowIdxs g) ([], 0)

-- ---------------------------------------------------------------------------
-- Generic indexing lemma for the `range'`-mapped presentations
-- ---------------------------------------------------------------------------

theorem getD_map_range' {α : Type} (f : Nat → α) (d : α) (n c : Nat)
    (h1 : 1 ≤ c) (h2 : c ≤ n) :
    ((List.range' 1 n).map f).getD (c - 1) d = f c := by
  have hlt : c - 1 < ((List.range' 1 n).map f).length := by
    rw [List.length_map, List.length_range']
    omega
  rw [List.getD_eq_getElem _ _ hlt, List.getElem_map, List.getElem_range']
  congr 1
  omega

-- ---------------------------------------------------------------------------
-- C1: the final filter is a substring filter, not an exact-equality filter
-- ---------------------------------------------------------------------------

/-- C1 counterexample: with grid `[["Name"], ["abc"]]`, filter column 1
and chosen value `"b"`, the handler counts and writes the row `"abc"`
(match_count 1), although the trimmed lowercased cell `"abc"` does not
equal `"b"` — it only contains it as a proper substring, so under the
claim the row would not be counted and match_count would be 0. -/
theorem C1_counterexample :
    (receive_select "1" { candidates := some ["b"] }
        (some [[PyValue.str "Name"], [PyValue.str "abc"]]) 1).document =
      some ⟨["Name"], [[some "abc"]], 1⟩ ∧
    queryKey (PyValue.str "abc") ≠ pyLower (pyStrip "b") ∧
    pyIn (pyLower "b") (queryKey (PyValue.str "abc")) = true := by decide

/-- C1 (amended): for every grid, filter column and chosen value, the
output builder counts a data row as a match if and only if the row's cell
at the column is not `None` and the chosen value, lowercased, occurs as a
substring of the cell's stringified, trimmed, lowercased text; exactly
the rows satisfying this substring test are written (formatted) to the
output, and the reported match_count is their number. -/
theorem C1_substring_filter (g : Grid) (col : Nat) (chosen : String) :
    (buildOutput g col chosen).2 = (dataRowIdxs g).countP (rowKeep g col chosen) ∧
    (buildOutput g col chosen).1 =
      ((dataRowIdxs g).filter (rowKeep g col chosen)).map (outRowAt g) := by
  rw [buildOutput_eq]
  exact ⟨rfl, rfl⟩

-- ---------------------------------------------------------------------------
-- C2: a single-candidate search is not short-circuited
-- ---------------------------------------------------------------------------

/-- C2 counterexample: on grid `[["Name"], ["Ann"]]`, column 1, query
`"an"`, the scan finds exactly one distinct value, yet the handler stores
it as a candidate and returns the selection state without sending any
document, instead of resolving and delivering immediately. -/
theorem C2_counterexample :
    (scanRows [[PyValue.str "Name"], [PyValue.str "Ann"]] 1 (pyLower (pyStrip "an"))
        (dataRowIdxs [[PyValue.str "Name"], [PyValue.str "Ann"]]) []).length = 1 ∧
    receive_query (fun _ cs => cs) [[PyValue.str "Name"], [PyValue.str "Ann"]] 1 "an" =
      ⟨BotState.waitingSelect, some ["Ann"], false⟩ := by decide

/-- C2 (amended): whenever the scan finds at least one distinct matching
value — including exactly one — `receive_query` stores the ranked,
truncated candidate list and moves to the selection state without
delivering anything; no single-match short-circuit exists. -/
theorem C2_no_short_circuit (rank : String → List String → List String) (g : Grid)
    (col : Nat) (text : String) (hq : pyStrip text ≠ "")
    (hs : scanRows g col (pyLower (pyStrip text)) (dataRowIdxs g) [] ≠ []) :
    receive_query rank g col text =
      ⟨BotState.waitingSelect,
        some ((rank (pyStrip text)
          ((scanRows g col (pyLower (pyStrip text)) (dataRowIdxs g) []).map Prod.snd)).take 40),
        false⟩ := by
  have hie : (scanRows g col (pyLower (pyStrip text)) (dataRowIdxs g) []).isEmpty = false := by
    cases h : scanRows g col (pyLower (pyStrip text)) (dataRowIdxs g) [] with
    | nil => exact absurd h hs
    | cons a l => rfl
  simp only [receive_query]
  rw [if_neg hq, if_neg (by simp [hie])]

theorem C2_no_short_circuit_witness :
    receive_query (fun _ cs => cs) [[PyValue.str "City"], [PyValue.str "NY"]] 1 "ny" =
      ⟨BotState.waitingSelect, some ["NY"], false⟩ := by
  have h := C2_no_short_circuit (fun _ cs => cs) [[PyValue.str "City"], [PyValue.str "NY"]] 1 "ny"
    (by decide) (by decide)
  rw [h]
  decide

-- ---------------------------------------------------------------------------
-- C3: numeric rendering of the cell normalizer
-- ---------------------------------------------------------------------------

theorem e_not_mem_intChars (i : Int) : 'e' ∉ (intStr i).data := by
  intro h
  exact absurd (intChars_subset h) (by decide)

/-- C3 counterexample: the non-integral float `1234.5 = 2469 / 2` lies in
the legacy date-serial range, so the cell normalizer renders it as the
date `18-05-1903` instead of the fixed-point decimal `"1234.5"` the claim
requires for every numeric value with a fractional part. -/
theorem C3_counterexample :
    format_cell_for_output (PyValue.float 2469 1) = some "18-05-1903" ∧
    (⟨pyFloatChars 2469 1⟩ : String) = "1234.5" ∧
    format_cell_for_output (PyValue.float 2469 1) ≠ some "1234.5" := by decide

/-- C3 (amended): integers and mathematically integral floats render as
their integer decimal representation, which never contains `e+`/`e-`; a
non-integral float strictly between 1000 and 100000 is rendered as a
`DD-MM-YYYY` date via the legacy serial heuristic, not as a decimal; any
other non-integral float falls through to the host's default float
stringification (modelled as the exact terminating decimal). -/
theorem C3_numeric_rendering (n : Int) (num : Int) (k : Nat) :
    (format_cell_for_output (PyValue.int n) = some (intStr n) ∧
      'e' ∉ (intStr n).data) ∧
    (is_integer_like_number (PyValue.float num k) = true →
      format_cell_for_output (PyValue.float num k) = some (intStr (floatTruncInt num k)) ∧
      'e' ∉ (intStr (floatTruncInt num k)).data) ∧
    (is_integer_like_number (PyValue.float num k) = false →
      Int.ofNat (1000 * pow2 k) < num → num < Int.ofNat (100000 * pow2 k) →
      format_cell_for_output (PyValue.float num k) =
        some (strftimeDMY (xldateFromRat num k))) ∧
    (is_integer_like_number (PyValue.float num k) = false →
      ¬(Int.ofNat (1000 * pow2 k) < num ∧ num < Int.ofNat (100000 * pow2 k)) →
      format_cell_for_output (PyValue.float num k) = some (⟨pyFloatChars num k⟩ : String)) := by
  refine ⟨⟨rfl, e_not_mem_intChars n⟩, ?_, ?_, ?_⟩
  · intro hint
    refine ⟨?_, e_not_mem_intChars _⟩
    simp only [format_cell_for_output, hint, if_true]
  · intro hnint h1 h2
    have hp : parse_possible_date (PyValue.float num k) = some (xldateFromRat num k) := by
      simp only [parse_possible_date]
      rw [if_pos ⟨h1, h2⟩]
    simp only [format_cell_for_output, hnint, hp]
    rw [if_neg (by decide)]
  · intro hnint hcon
    have hp : parse_possible_date (PyValue.float num k) = Option.none := by
      simp only [parse_possible_date]
      rw [if_neg hcon]
    simp only [format_cell_for_output, hnint, hp]
    rw [if_neg (by decide)]

theorem C3_numeric_rendering_witness :
    format_cell_for_output (PyValue.float 2469 1) =
      some (strftimeDMY (xldateFromRat 2469 1)) ∧
    format_cell_for_output (PyValue.float 9 2) = some (⟨pyFloatChars 9 2⟩ : String) ∧
    format_cell_for_output (PyValue.float 8 2) = some (intStr (floatTruncInt 8 2)) := by
  refine ⟨(C3_numeric_rendering 0 2469 1).2.2.1 (by decide) (by decide) (by decide),
    (C3_numeric_rendering 0 9 2).2.2.2 (by decide) (by decide),
    ((C3_numeric_rendering 0 8 2).2.1 (by decide)).1⟩

-- ---------------------------------------------------------------------------
-- C5: the legacy-to-modern fallback fires only on one specific message
-- ---------------------------------------------------------------------------

/-- C5 counterexample: a structural `XLRDError` whose message is xlrd's
generic `"Unsupported format, or corrupt file: Expected BOF record"` is
re-raised as-is for a `.xls` file — the decoder does not re-attempt the
bytes as a modern container even though that attempt would succeed. -/
theorem C5_counterexample :
    load_excel_clean_from_bytes (.ok [[PyValue.str "x"]])
        (.error (.xlrdError "Unsupported format, or corrupt file: Expected BOF record"))
        "data.xls" =
      .error (.xlrdError "Unsupported format, or corrupt file: Expected BOF record") ∧
    load_excel_clean_from_bytes (.ok [[PyValue.str "x"]])
        (.error (.xlrdError "Unsupported format, or corrupt file: Expected BOF record"))
        "data.xls" ≠ .ok [[PyValue.str "x"]] := by decide

/-- C5 (amended): for a `.xls`-named payload whose legacy read raises an
`XLRDError`, the modern-container fallback is attempted exactly when the
error message contains `"xlsx file; not supported"` (case-insensitively);
any other `XLRDError` message, and any non-`XLRDError` exception, is
surfaced without a fallback attempt. -/
theorem C5_fallback_policy (xlsxAttempt : Except DecodeErr Grid) (msg fileName : String)
    (h1 : pyEndsWith (pyLower fileName) ".xlsx" = false)
    (h2 : pyEndsWith (pyLower fileName) ".xls" = true) :
    (pyIn "xlsx file; not supported" (pyLower msg) = true →
      load_excel_clean_from_bytes xlsxAttempt (.error (.xlrdError msg)) fileName =
        xlsxAttempt) ∧
    (pyIn "xlsx file; not supported" (pyLower msg) = false →
      load_excel_clean_from_bytes xlsxAttempt (.error (.xlrdError msg)) fileName =
        .error (.xlrdError msg)) ∧
    (∀ e, load_excel_clean_from_bytes xlsxAttempt (.error (.otherError e)) fileName =
      .error (.otherError e)) := by
  refine ⟨?_, ?_, ?_⟩
  · intro hmsg
    simp only [load_excel_clean_from_bytes]
    rw [if_neg (by simp [h1]), if_pos h2, if_pos hmsg]
  · intro hmsg
    simp only [load_excel_clean_from_bytes]
    rw [if_neg (by simp [h1]), if_pos h2, if_neg (by simp [hmsg])]
  · intro e
    simp only [load_excel_clean_from_bytes]
    rw [if_neg (by simp [h1]), if_pos h2]

theorem C5_fallback_policy_witness :
    load_excel_clean_from_bytes (.ok [[PyValue.str "x"]])
        (.error (.xlrdError "Excel xlsx file; not supported")) "mislabeled.XLS" =
      .ok [[PyValue.str "x"]] ∧
    load_excel_clean_from_bytes (.ok [[PyValue.str "x"]])
        (.error (.xlrdError "shared string index out of range")) "broken.xls" =
      .error (.xlrdError "shared string index out of range") := by
  refine ⟨?_, ?_⟩
  · have h := C5_fallback_policy (.ok [[PyValue.str "x"]])
      "Excel xlsx file; not supported" "mislabeled.XLS" (by decide) (by decide)
    exact h.1 (by decide)
  · have h := C5_fallback_policy (.ok [[PyValue.str "x"]])
      "shared string index out of range" "broken.xls" (by decide) (by decide)
    exact h.2.1 (by decide)

-- ---------------------------------------------------------------------------
-- C7: the normalizer's value for a missing cell
-- ---------------------------------------------------------------------------

/-- C7 counterexample: a missing (`None`) cell is normalized to `None`,
not to the empty string. -/
theorem C7_counterexample : format_cell_for_output PyValue.none ≠ some "" := by decide

/-- C7 (amended): the normalizer maps a missing (`None`) cell to `None`
(which openpyxl serializes as an empty cell), while an empty-string cell
maps to the empty string; on both inputs it returns rather than raises
(the function is total by construction). -/
theorem C7_missing_cell :
    format_cell_for_output PyValue.none = Option.none ∧
    format_cell_for_output (PyValue.str "") = some "" := by decide

-- ---------------------------------------------------------------------------
-- C8: one label per header position; placeholder only for `None` cells
-- ---------------------------------------------------------------------------

/-- C8 counterexample: a header cell holding the blank string `"  "` has
empty normalized text, yet its label is the raw `"1.   "` rather than the
positional placeholder `"1. Column A"`. -/
theorem C8_counterexample :
    columnHeaders [[PyValue.str "  "]] = ["1.   "] ∧
    pyStrip "  " = "" ∧
    "1.   " ≠ "1. Column A" := by decide

/-- C8 (amended): the catalog has one label per header position
(`wsMaxCol` many); position `c` gets the positional placeholder
`"c. Column <letter>"` exactly when the header cell is `None`, and
otherwise the label is `"c. "` followed by the raw stringified cell value
(not trimmed or otherwise normalized). -/
theorem C8_header_labels (g : Grid) (c : Nat) (hc1 : 1 ≤ c) (hc2 : c ≤ wsMaxCol g) :
    (columnHeaders g).length = wsMaxCol g ∧
    (cellAt g 1 c = PyValue.none →
      (columnHeaders g).getD (c - 1) "" = natStr c ++ ". Column " ++ get_column_letter c) ∧
    (cellAt g 1 c ≠ PyValue.none →
      (columnHeaders g).getD (c - 1) "" = natStr c ++ ". " ++ pyStr (cellAt g 1 c)) := by
  have hlen : (columnHeaders g).length = wsMaxCol g := by
    unfold columnHeaders
    rw [List.length_map, List.length_range']
  have hget := getD_map_range' (headerLabel g) "" (wsMaxCol g) c hc1 hc2
  refine ⟨hlen, ?_, ?_⟩
  · intro hnone
    rw [show columnHeaders g = (List.range' 1 (wsMaxCol g)).map (headerLabel g) from rfl, hget]
    unfold headerLabel
    rw [hnone]
  · intro hne
    rw [show columnHeaders g = (List.range' 1 (wsMaxCol g)).map (headerLabel g) from rfl, hget]
    unfold headerLabel
    cases hv : cellAt g 1 c with
    | none => exact absurd hv hne
    | int m => rfl
    | float a b => rfl
    | str s => rfl
    | datetime dt => rfl

theorem C8_header_labels_witness :
    (columnHeaders [[PyValue.str "Name", PyValue.none]]).getD 1 "" = "2. Column B" ∧
    (columnHeaders [[PyValue.str "Name", PyValue.none]]).getD 0 "" = "1. Name" ∧
    (columnHeaders [[PyValue.str "Name", PyValue.none]]).length = 2 := by
  have h2 := C8_header_labels [[PyValue.str "Name", PyValue.none]] 2 (by decide) (by decide)
  have h1 := C8_header_labels [[PyValue.str "Name", PyValue.none]] 1 (by decide) (by decide)
  refine ⟨?_, ?_, ?_⟩
  · rw [show (1 : Nat) = 2 - 1 from rfl, h2.2.1 (by decide)]
    decide
  · rw [show (0 : Nat) = 1 - 1 from rfl, h1.2.2 (by decide)]
    decide
  · rw [h1.1]
    decide

-- ---------------------------------------------------------------------------
-- C9: the row-count ceiling rejects without touching the session
-- ---------------------------------------------------------------------------

/-- C9: when the decoded workbook's data-row count (rows minus the
header) exceeds the configured ceiling, `receive_file` rejects with the
row-limit message, stays in the file-awaiting state, and stores nothing
in the session. -/
theorem C9_row_limit (maxRows : Nat) (fname savedPath : String) (g : Grid) (ud : SessionData)
    (hext : (pyEndsWith (pyLower fname) ".xls" || pyEndsWith (pyLower fname) ".xlsx") = true)
    (hrows : wsMaxRow g - 1 > maxRows) :
    receive_file maxRows fname savedPath g ud =
      ⟨BotState.waitingFile, FileOutcome.tooManyRows (wsMaxRow g - 1) maxRows, ud⟩ := by
  unfold receive_file
  rw [hext]
  rw [if_neg (by decide), if_pos hrows]

def C9grid : Grid :=
  [[PyValue.str "h"], [PyValue.int 1], [PyValue.int 2], [PyValue.int 3], [PyValue.int 4]]

theorem C9_row_limit_witness :
    receive_file 2 "big.xlsx" "saved" C9grid {} =
      ⟨BotState.waitingFile, FileOutcome.tooManyRows 4 2, {}⟩ ∧
    (receive_file 2 "big.xlsx" "saved" C9grid {}).data.filePath = Option.none ∧
    (receive_file 2 "big.xlsx" "saved" C9grid {}).data.maxCol = Option.none ∧
    (receive_file 2 "big.xlsx" "saved" C9grid {}).data.col = Option.none := by
  have h := C9_row_limit 2 "big.xlsx" "saved" C9grid {} (by decide) (by decide)
  rw [h]
  exact ⟨by decide, rfl, rfl, rfl⟩

-- ---------------------------------------------------------------------------
-- C10: candidate text and output text disagree on dates and serial floats
-- ---------------------------------------------------------------------------

/-- Stripping is idempotent at the `String` level. -/
theorem pyStrip_idem (s : String) : pyStrip (pyStrip s) = pyStrip s :=
  congrArg String.mk (stripChars_idem s.data)

theorem colon_mem_dtChars (d : PyDateTime) : ':' ∈ dtChars d := by
  unfold dtChars
  simp

theorem dot_mem_pyFloatChars (num : Int) (k : Nat) : '.' ∈ pyFloatChars num k := by
  unfold pyFloatChars
  simp

/-- In the legacy serial range, a non-integral float is normalized to a
`DD-MM-YYYY` date string. -/
theorem fco_float_in_date_range (num : Int) (k : Nat)
    (hnint : is_integer_like_number (PyValue.float num k) = false)
    (h1 : Int.ofNat (1000 * pow2 k) < num) (h2 : num < Int.ofNat (100000 * pow2 k)) :
    format_cell_for_output (PyValue.float num k) = some (strftimeDMY (xldateFromRat num k)) := by
  have hp : parse_possible_date (PyValue.float num k) = some (xldateFromRat num k) := by
    simp only [parse_possible_date]
    rw [if_pos ⟨h1, h2⟩]
  simp only [format_cell_for_output, hnint, hp]
  rw [if_neg (by decide)]

/-- C10: the candidate text shown during search (`str(raw).strip()`) and
the text the output builder writes for the same cell
(`format_cell_for_output`) come from different computations and differ on
every datetime-valued cell (candidate `YYYY-MM-DD HH:MM:SS` vs output
`DD-MM-YYYY`) and on every non-integral float in the legacy date-serial
range (candidate decimal vs output date), so a selected candidate string
need not appear verbatim in the delivered file. -/
theorem C10_candidate_vs_output (d : PyDateTime) (num : Int) (k : Nat)
    (hnl : is_integer_like_number (PyValue.float num k) = false)
    (h1 : Int.ofNat (1000 * pow2 k) < num) (h2 : num < Int.ofNat (100000 * pow2 k)) :
    some (querySurface (PyValue.datetime d)) ≠ format_cell_for_output (PyValue.datetime d) ∧
    some (querySurface (PyValue.float num k)) ≠ format_cell_for_output (PyValue.float num k) := by
  constructor
  · intro heq
    have hfco : format_cell_for_output (PyValue.datetime d) = some (strftimeDMY d) := rfl
    rw [hfco] at heq
    have hstr := Option.some.inj heq
    have hmem : ':' ∈ (strftimeDMY d).data := by
      rw [← hstr]
      exact mem_stripChars (by decide) (colon_mem_dtChars d)
    exact absurd (strftimeDMYChars_subset hmem) (by decide)
  · intro heq
    rw [fco_float_in_date_range num k hnl h1 h2] at heq
    have hstr := Option.some.inj heq
    have hmem : '.' ∈ (strftimeDMY (xldateFromRat num k)).data := by
      rw [← hstr]
      exact mem_stripChars (by decide) (dot_mem_pyFloatChars num k)
    exact absurd (strftimeDMYChars_subset hmem) (by decide)

theorem C10_candidate_vs_output_witness :
    some (querySurface (PyValue.datetime ⟨2023, 5, 18, 0, 0, 0⟩)) ≠
      format_cell_for_output (PyValue.datetime ⟨2023, 5, 18, 0, 0, 0⟩) ∧
    some (querySurface (PyValue.float 2469 1)) ≠
      format_cell_for_output (PyValue.float 2469 1) :=
  C10_candidate_vs_output ⟨2023, 5, 18, 0, 0, 0⟩ 2469 1 (by decide) (by decide) (by decide)

-- ---------------------------------------------------------------------------
-- C6: the selection-state input protocol
-- ---------------------------------------------------------------------------

/-- C6: in the selection state, non-numeric input reprompts leaving the
session untouched; the digit string 0 cancels; an index into the stored
candidate list (whose entries all occur as surface forms in the filter
column, as `receive_query` guarantees) resolves that candidate, builds
the filtered output with at least one match, delivers it and ends the
session; a numeric index beyond the list reprompts leaving the session
untouched. -/
theorem C6_selection_protocol (text : String) (ud : SessionData) (g : Grid) (col : Nat)
    (cands : List String)
    (hc : ud.candidates = some cands)
    (hprov : ∀ v ∈ cands, ∃ r ∈ dataRowIdxs g,
        cellAt g r col ≠ PyValue.none ∧ querySurface (cellAt g r col) = v) :
    (pyIsDigit (pyStrip text) = false →
      receive_select text ud (some g) col =
        ⟨BotState.waitingSelect, ud, Option.none, "Enter a valid number."⟩) ∧
    (pyIsDigit (pyStrip text) = true → pyDigitsToNat (pyStrip text) = 0 →
      receive_select text ud (some g) col =
        ⟨BotState.ended, ud, Option.none, "Cancelled."⟩) ∧
    (pyIsDigit (pyStrip text) = true →
      1 ≤ pyDigitsToNat (pyStrip text) → pyDigitsToNat (pyStrip text) ≤ cands.length →
      1 ≤ (dataRowIdxs g).countP
          (rowKeep g col (cands.getD (pyDigitsToNat (pyStrip text) - 1) "")) ∧
      receive_select text ud (some g) col =
        ⟨BotState.ended,
          { ud with chosenValue := some (cands.getD (pyDigitsToNat (pyStrip text) - 1) "") },
          some ⟨outputHeader g,
            ((dataRowIdxs g).filter
              (rowKeep g col (cands.getD (pyDigitsToNat (pyStrip text) - 1) ""))).map
              (outRowAt g),
            (dataRowIdxs g).countP
              (rowKeep g col (cands.getD (pyDigitsToNat (pyStrip text) - 1) ""))⟩,
          "Filtered file ready. " ++
            natStr ((dataRowIdxs g).countP
              (rowKeep g col (cands.getD (pyDigitsToNat (pyStrip text) - 1) ""))) ++
            " rows matched."⟩) ∧
    (pyIsDigit (pyStrip text) = true → pyDigitsToNat (pyStrip text) > cands.length →
      receive_select text ud (some g) col =
        ⟨BotState.waitingSelect, ud, Option.none, "Invalid selection."⟩) := by
  refine ⟨?_, ?_, ?_, ?_⟩
  · intro hdig
    simp only [receive_select]
    rw [if_pos (by rw [hdig]; rfl)]
  · intro hdig h0
    simp only [receive_select]
    rw [if_neg (by rw [hdig]; decide), if_pos h0]
  · intro hdig hge hle
    have hchosen_mem : cands.getD (pyDigitsToNat (pyStrip text) - 1) "" ∈ cands := by
      have hlt : pyDigitsToNat (pyStrip text) - 1 < cands.length := by omega
      rw [List.getD_eq_getElem _ _ hlt]
      exact List.getElem_mem _
    obtain ⟨r, hr, hnone, hsurf⟩ := hprov _ hchosen_mem
    have hbeq : (cellAt g r col == PyValue.none) = false := beq_eq_false_iff_ne.mpr hnone
    have hkeep : rowKeep g col (cands.getD (pyDigitsToNat (pyStrip text) - 1) "") r = true := by
      unfold rowKeep
      rw [hbeq, ← hsurf]
      show (!false &&
        pyIn (pyLower (querySurface (cellAt g r col)))
          (pyLower (pyStrip (pyStr (cellAt g r col))))) = true
      rw [show pyLower (querySurface (cellAt g r col)) =
        pyLower (pyStrip (pyStr (cellAt g r col))) from rfl, pyIn_refl]
      rfl
    have hcount : 1 ≤ (dataRowIdxs g).countP
        (rowKeep g col (cands.getD (pyDigitsToNat (pyStrip text) - 1) "")) :=
      List.countP_pos_iff.mpr ⟨r, hr, hkeep⟩
    refine ⟨hcount, ?_⟩
    simp only [receive_select]
    rw [if_neg (by rw [hdig]; decide), if_neg (by omega), hc]
    simp only [Option.getD_some]
    rw [if_neg (by push_neg; omega), buildOutput_eq]
    rw [if_neg (by simp only []; omega)]
  · intro hdig hgt
    simp only [receive_select]
    rw [if_neg (by rw [hdig]; decide), if_neg (by omega), hc]
    simp only [Option.getD_some]
    rw [if_pos (Or.inr hgt)]

def C6grid : Grid := [[PyValue.str "Name"], [PyValue.str "Ann"], [PyValue.str "Bo"]]

theorem C6_selection_protocol_witness :
    receive_select "x" { candidates := some ["Ann"] } (some C6grid) 1 =
      ⟨BotState.waitingSelect, { candidates := some ["Ann"] }, Option.none,
        "Enter a valid number."⟩ ∧
    receive_select "0" { candidates := some ["Ann"] } (some C6grid) 1 =
      ⟨BotState.ended, { candidates := some ["Ann"] }, Option.none, "Cancelled."⟩ ∧
    (receive_select "1" { candidates := some ["Ann"] } (some C6grid) 1).document =
      some ⟨["Name"], [[some "Ann"]], 1⟩ ∧
    receive_select "2" { candidates := some ["Ann"] } (some C6grid) 1 =
      ⟨BotState.waitingSelect, { candidates := some ["Ann"] }, Option.none,
        "Invalid selection."⟩ := by
  refine ⟨?_, ?_, ?_, ?_⟩
  · exact (C6_selection_protocol "x" { candidates := some ["Ann"] } C6grid 1 ["Ann"]
      rfl (by decide)).1 (by decide)
  · exact (C6_selection_protocol "0" { candidates := some ["Ann"] } C6grid 1 ["Ann"]
      rfl (by decide)).2.1 (by decide) (by decide)
  · have h := (C6_selection_protocol "1" { candidates := some ["Ann"] } C6grid 1 ["Ann"]
      rfl (by decide)).2.2.1 (by decide) (by decide) (by decide)
    rw [h.2]
    decide
  · exact (C6_selection_protocol "2" { candidates := some ["Ann"] } C6grid 1 ["Ann"]
      rfl (by decide)).2.2.2 (by decide) (by decide)

-- ---------------------------------------------------------------------------
-- C4: soundness of the candidate scan
-- ---------------------------------------------------------------------------

/-- Does row `r` hold a non-`None` cell whose normalized text contains
`ql` and whose canonical key equals `key`? -/
def candMatch (g : Grid) (col : Nat) (ql key : String) (r : Nat) : Bool :=
  !(cellAt g r col == PyValue.none) && pyIn ql (queryKey (cellAt g r col)) &&
    (queryKey (cellAt g r col) == key)

/-- The dedup recursion underlying `scanRows`, tracking only the set of
already-seen keys. -/
def newEntries (g : Grid) (col : Nat) (ql : String) :
    List Nat → List String → List (String × String)
  | [], _ => []
  | r :: rs, ks =>
    if cellAt g r col = PyValue.none then newEntries g col ql rs ks
    else if pyIn ql (queryKey (cellAt g r col)) then
      if ks.any (· == queryKey (cellAt g r col)) then newEntries g col ql rs ks
      else (queryKey (cellAt g r col), querySurface (cellAt g r col)) ::
        newEntries g col ql rs (ks ++ [queryKey (cellAt g r col)])
    else newEntries g col ql rs ks

theorem any_fst_eq (l : List (String × String)) (key : String) :
    (l.any fun p => p.1 == key) = ((l.map Prod.fst).any (· == key)) := by
  induction l with
  | nil => rfl
  | cons a as ihl => simp [List.any_cons, ihl]

theorem scanRows_eq_newEntries (g : Grid) (col : Nat) (ql : String) :
    ∀ (rows : List Nat) (seen : List (String × String)),
      scanRows g col ql rows seen = seen ++ newEntries g col ql rows (seen.map Prod.fst) := by
  intro rows
  induction rows with
  | nil => intro seen; simp [scanRows, newEntries]
  | cons r rs ih =>
    intro seen
    simp only [scanRows, newEntries]
    by_cases h1 : cellAt g r col = PyValue.none
    · rw [if_pos h1, if_pos h1]
      exact ih seen
    · rw [if_neg h1, if_neg h1]
      by_cases h2 : pyIn ql (queryKey (cellAt g r col)) = true
      · rw [if_pos h2, if_pos h2]
        have hany := any_fst_eq seen (queryKey (cellAt g r col))
        by_cases h3 : (seen.any fun p => p.1 == queryKey (cellAt g r col)) = true
        · rw [if_pos h3, if_pos (by rw [← hany]; exact h3)]
          exact ih seen
        · rw [if_neg h3, if_neg (by rw [← hany]; exact h3)]
          rw [ih (seen ++ [(queryKey (cellAt g r col), querySurface (cellAt g r col))])]
          simp [List.map_append]
      · rw [if_neg h2, if_neg h2]
        exact ih seen

theorem newEntries_sound (g : Grid) (col : Nat) (ql : String) :
    ∀ (rows : List Nat) (ks : List String) (p : String × String),
      p ∈ newEntries g col ql rows ks →
      ks.any (· == p.1) = false ∧
      ∃ r, rows.find? (candMatch g col ql p.1) = some r ∧
        cellAt g r col ≠ PyValue.none ∧
        queryKey (cellAt g r col) = p.1 ∧
        querySurface (cellAt g r col) = p.2 := by
  intro rows
  induction rows with
  | nil =>
    intro ks p hp
    simp [newEntries] at hp
  | cons r rs ih =>
    intro ks p hp
    simp only [newEntries] at hp
    by_cases h1 : cellAt g r col = PyValue.none
    · rw [if_pos h1] at hp
      obtain ⟨hks, rr, hfind, h3, h4, h5⟩ := ih ks p hp
      refine ⟨hks, rr, ?_, h3, h4, h5⟩
      rw [List.find?_cons_of_neg _ (by unfold candMatch; rw [beq_iff_eq.mpr h1]; simp)]
      exact hfind
    · rw [if_neg h1] at hp
      by_cases h2 : pyIn ql (queryKey (cellAt g r col)) = true
      · rw [if_pos h2] at hp
        by_cases h3 : (ks.any (· == queryKey (cellAt g r col))) = true
        · rw [if_pos h3] at hp
          obtain ⟨hks, rr, hfind, h4, h5, h6⟩ := ih ks p hp
          have hne : p.1 ≠ queryKey (cellAt g r col) := by
            intro he
            rw [he] at hks
            exact absurd (hks.symm.trans h3) (by decide)
          refine ⟨hks, rr, ?_, h4, h5, h6⟩
          rw [List.find?_cons_of_neg _ (by
            unfold candMatch
            rw [beq_eq_false_iff_ne.mpr (fun hh => hne hh.symm)]
            simp)]
          exact hfind
        · rw [if_neg h3] at hp
          rcases List.mem_cons.mp hp with rfl | hp'
          · refine ⟨Bool.eq_false_iff.mpr h3, r, ?_, h1, rfl, rfl⟩
            rw [List.find?_cons_of_pos _ (by
              unfold candMatch
              rw [beq_eq_false_iff_ne.mpr h1, h2, beq_self_eq_true]
              rfl)]
          · obtain ⟨hks', rr, hfind, h4, h5, h6⟩ := ih (ks ++ [queryKey (cellAt g r col)]) p hp'
            rw [List.any_append] at hks'
            rcases Bool.or_eq_false_iff.mp hks' with ⟨hksa, hksb⟩
            have hne : queryKey (cellAt g r col) ≠ p.1 := by
              intro he
              rw [List.any_cons] at hksb
              rw [he, beq_self_eq_true] at hksb
              simp at hksb
            refine ⟨hksa, rr, ?_, h4, h5, h6⟩
            rw [List.find?_cons_of_neg _ (by
              unfold candMatch
              rw [beq_eq_false_iff_ne.mpr hne]
              simp)]
            exact hfind
      · rw [if_neg h2] at hp
        obtain ⟨hks, rr, hfind, h3, h4, h5⟩ := ih ks p hp
        refine ⟨hks, rr, ?_, h3, h4, h5⟩
        rw [List.find?_cons_of_neg _ (by
          unfold candMatch
          rw [Bool.eq_false_iff.mpr h2]
          simp)]
        exact hfind

theorem newEntries_keys_pairwise (g : Grid) (col : Nat) (ql : String) :
    ∀ (rows : List Nat) (ks : List String),
      (newEntries g col ql rows ks).Pairwise (fun a b => a.1 ≠ b.1) := by
  intro rows
  induction rows with
  | nil => intro ks; simp [newEntries]
  | cons r rs ih =>
    intro ks
    simp only [newEntries]
    by_cases h1 : cellAt g r col = PyValue.none
    · rw [if_pos h1]; exact ih ks
    · rw [if_neg h1]
      by_cases h2 : pyIn ql (queryKey (cellAt g r col)) = true
      · rw [if_pos h2]
        by_cases h3 : (ks.any (· == queryKey (cellAt g r col))) = true
        · rw [if_pos h3]; exact ih ks
        · rw [if_neg h3]
          refine List.Pairwise.cons ?_ (ih (ks ++ [queryKey (cellAt g r col)]))
          intro q hq
          have h := (newEntries_sound g col ql rs _ q hq).1
          rw [List.any_append] at h
          rcases Bool.or_eq_false_iff.mp h with ⟨-, hb⟩
          rw [List.any_cons] at hb
          intro he
          have he' : queryKey (cellAt g r col) = q.1 := he
          rw [he', beq_self_eq_true] at hb
          simp at hb
      · rw [if_neg h2]; exact ih ks

/-- Every retained surface form normalizes back to its key. -/
theorem newEntries_key_eq (g : Grid) (col : Nat) (ql : String) (rows : List Nat)
    (ks : List String) (p : String × String) (hp : p ∈ newEntries g col ql rows ks) :
    pyLower (pyStrip p.2) = p.1 := by
  obtain ⟨-, r, -, -, h4, h5⟩ := newEntries_sound g col ql rows ks p hp
  rw [← h5]
  show pyLower (pyStrip (pyStrip (pyStr (cellAt g r col)))) = _
  rw [pyStrip_idem]
  exact h4

/-- C4: when `receive_query` stores a candidate list, the list has at
most 40 entries; every entry `v` is the trimmed surface form of the first
data row (in row order) whose non-`None` cell normalizes to `v`'s
canonical trimmed-lowercased key and contains the lowercased query as a
substring; and no two entries share a canonical key. -/
theorem C4_candidates (rank : String → List String → List String) (g : Grid) (col : Nat)
    (text : String) (presented : List String)
    (hrank : ∀ q cs, (rank q cs).Subperm cs)
    (hres : (receive_query rank g col text).storedCandidates = some presented) :
    presented.length ≤ 40 ∧
    (∀ v ∈ presented, ∃ r,
      (dataRowIdxs g).find?
          (candMatch g col (pyLower (pyStrip text)) (pyLower (pyStrip v))) = some r ∧
      cellAt g r col ≠ PyValue.none ∧
      querySurface (cellAt g r col) = v ∧
      pyIn (pyLower (pyStrip text)) (queryKey (cellAt g r col)) = true) ∧
    presented.Pairwise (fun a b => pyLower (pyStrip a) ≠ pyLower (pyStrip b)) := by
  simp only [receive_query] at hres
  by_cases hq : pyStrip text = ""
  · rw [if_pos hq] at hres
    exact absurd hres (by simp)
  rw [if_neg hq] at hres
  by_cases hie : (scanRows g col (pyLower (pyStrip text)) (dataRowIdxs g) []).isEmpty = true
  · rw [if_pos hie] at hres
    exact absurd hres (by simp)
  rw [if_neg hie] at hres
  have hpres : presented =
      (rank (pyStrip text)
        ((scanRows g col (pyLower (pyStrip text)) (dataRowIdxs g) []).map Prod.snd)).take 40 :=
    (Option.some.inj hres).symm
  have hentries : scanRows g col (pyLower (pyStrip text)) (dataRowIdxs g) [] =
      newEntries g col (pyLower (pyStrip text)) (dataRowIdxs g) [] := by
    rw [scanRows_eq_newEntries]
    simp
  have hchoice : ∀ v ∈ (scanRows g col (pyLower (pyStrip text)) (dataRowIdxs g) []).map
      Prod.snd, ∃ r,
      (dataRowIdxs g).find?
          (candMatch g col (pyLower (pyStrip text)) (pyLower (pyStrip v))) = some r ∧
      cellAt g r col ≠ PyValue.none ∧
      querySurface (cellAt g r col) = v ∧
      pyIn (pyLower (pyStrip text)) (queryKey (cellAt g r col)) = true := by
    intro v hv
    obtain ⟨p, hpmem, rfl⟩ := List.mem_map.mp hv
    rw [hentries] at hpmem
    obtain ⟨-, r, hfind, hnone, hkey, hsurf⟩ :=
      newEntries_sound g col (pyLower (pyStrip text)) _ _ p hpmem
    have hk2 : pyLower (pyStrip p.2) = p.1 :=
      newEntries_key_eq g col (pyLower (pyStrip text)) _ _ p hpmem
    refine ⟨r, ?_, hnone, hsurf, ?_⟩
    · rw [hk2]
      exact hfind
    · have hm := List.find?_some hfind
      unfold candMatch at hm
      simp only [Bool.and_eq_true] at hm
      exact hm.1.2
  have hpw_choices : ((scanRows g col (pyLower (pyStrip text)) (dataRowIdxs g) []).map
      Prod.snd).Pairwise (fun a b => pyLower (pyStrip a) ≠ pyLower (pyStrip b)) := by
    rw [hentries, List.pairwise_map]
    refine (newEntries_keys_pairwise g col (pyLower (pyStrip text)) (dataRowIdxs g)
      []).imp_of_mem ?_
    intro a b ha hb hne
    have hka := newEntries_key_eq g col (pyLower (pyStrip text)) _ _ a ha
    have hkb := newEntries_key_eq g col (pyLower (pyStrip text)) _ _ b hb
    intro he
    apply hne
    rw [← hka, ← hkb]
    exact he
  obtain ⟨l', hperm, hsub⟩ :=
    hrank (pyStrip text) ((scanRows g col (pyLower (pyStrip text)) (dataRowIdxs g) []).map
      Prod.snd)
  have hpw_rank : (rank (pyStrip text)
      ((scanRows g col (pyLower (pyStrip text)) (dataRowIdxs g) []).map Prod.snd)).Pairwise
      (fun a b => pyLower (pyStrip a) ≠ pyLower (pyStrip b)) :=
    (List.Perm.pairwise_iff (fun {x y} h he => h he.symm) hperm).mp
      (List.Pairwise.sublist hsub hpw_choices)
  refine ⟨?_, ?_, ?_⟩
  · rw [hpres, List.length_take]
    exact Nat.min_le_left _ _
  · intro v hv
    rw [hpres] at hv
    exact hchoice v ((hrank _ _).subset (List.take_subset _ _ hv))
  · rw [hpres]
    exact List.Pairwise.sublist (List.take_sublist _ _) hpw_rank

def C4grid : Grid :=
  [[PyValue.str "Name"], [PyValue.str "Ann"], [PyValue.str "ann "], [PyValue.str "Bo"]]

theorem C4_candidates_witness :
    (["Ann"] : List String).length ≤ 40 ∧
    (∃ r, (dataRowIdxs C4grid).find?
        (candMatch C4grid 1 (pyLower (pyStrip "an")) (pyLower (pyStrip "Ann"))) = some r ∧
      cellAt C4grid r 1 ≠ PyValue.none ∧
      querySurface (cellAt C4grid r 1) = "Ann" ∧
      pyIn (pyLower (pyStrip "an")) (queryKey (cellAt C4grid r 1)) = true) ∧
    (["Ann"] : List String).Pairwise (fun a b => pyLower (pyStrip a) ≠ pyLower (pyStrip b)) := by
  have h := C4_candidates (fun _ cs => cs) C4grid 1 "an" ["Ann"]
    (fun _ cs => List.Subperm.refl cs) (by decide)
  exact ⟨h.1, h.2.1 "Ann" (by decide), h.2.2⟩
